import Mathlib

/-!
Verification of the `dotpipe/sauce` step-sequenced tone synthesizer
(`src/sauce.py`).  Each section embeds one part of the source as Lean
definitions and proves or refutes the frozen claims about it.
-/

namespace Sauce

/-! ## Constants (`sauce.py` lines 13-17) -/

def SAMPLE_RATE : Nat := 44100
def NUM_VOICES : Nat := 4
def NUM_BANDS : Nat := 6
def STEP_COUNT : Nat := 32

/-! ## Tk variable model

Tk `BooleanVar`/`IntVar` objects have reference semantics: several
dictionary slots can hold the *same* variable.  A `TkVar` is an index
into a store of boolean cells; `get`/`set` read and write the cell. -/

structure TkVar where
  id : Nat
deriving DecidableEq, Repr

def TkVar.get (store : List Bool) (v : TkVar) : Bool :=
  store.getD v.id false

def TkVar.set (store : List Bool) (v : TkVar) (b : Bool) : List Bool :=
  store.set v.id b

/-! ## Application state

`MusicSynthesizerApp.__init__` creates the single `self.mute_var`
(line 77).  `create_voice_controls` (lines 113-156) appends, for each
voice, a record whose `"mute"` entry is that same shared variable
(line 155) and whose `"Loop"` slider value the tick loop reads through
`int(...)` (line 242); we keep the integer loop length directly.
`create_sequencer` (lines 208-225) builds `self.sequence`: for each
voice a row holding a fresh per-row mute variable at position 0
followed by `STEP_COUNT` fresh step variables (positions 1..32). -/

structure Voice where
  loopLen : Nat
  mute : TkVar
deriving DecidableEq, Repr

structure App where
  muteVar : TkVar
  voices : List Voice
  sequence : List (List TkVar)
deriving DecidableEq, Repr

/-- Cell layout: cell 0 is `self.mute_var`; row `i` of the sequencer
occupies cells `1 + i*(STEP_COUNT+1)` (its mute variable) through
`1 + i*(STEP_COUNT+1) + STEP_COUNT` (its step variables).  Row `i` as a
list therefore has the variable with id `1 + i*(STEP_COUNT+1) + p` at
position `p`. -/
def rowVars (i : Nat) : List TkVar :=
  ⟨1 + i * (STEP_COUNT + 1)⟩ ::
    (List.range STEP_COUNT).map (fun j => ⟨1 + i * (STEP_COUNT + 1) + 1 + j⟩)

/-- The app after `__init__` has run `create_voice_controls` once per
voice (with the given integer `Loop` values) and `create_sequencer`. -/
def buildApp (loops : List Nat) : App :=
  { muteVar := ⟨0⟩
  , voices := loops.map (fun l => { loopLen := l, mute := ⟨0⟩ })
  , sequence := (List.range NUM_VOICES).map rowVars }

/-- The store right after construction: every variable is false/0. -/
def initStore : List Bool :=
  List.replicate (1 + NUM_VOICES * (STEP_COUNT + 1)) false

/-! ## Tick loop (`run_sequence`, lines 237-249)

Each tick, for each voice `i`:
`voice_loop = int(voice["params"]["Loop"].get())`,
`step_index = global_step % voice_loop` (Python `%` raises
`ZeroDivisionError` when `voice_loop` is 0, modelled as `.error`),
then `if not voice["mute"].get(): if step_index < STEP_COUNT and
self.sequence[i][step_index].get(): self.play_voice(i)`.
After the voice loop, `global_step += 1` unconditionally. -/

/-- Lines 242-243: the per-voice step computation. -/
def stepIndexOf (globalStep voiceLoop : Nat) : Except Unit Nat :=
  if voiceLoop = 0 then .error () else .ok (globalStep % voiceLoop)

/-- Whether voice `i` is triggered at global step `g` under `store`. -/
def voiceFires (app : App) (store : List Bool) (g i : Nat) :
    Except Unit Bool :=
  match app.voices[i]? with
  | none => .error ()
  | some voice =>
    match stepIndexOf g voice.loopLen with
    | .error e => .error e
    | .ok stepIndex =>
      if voice.mute.get store then
        .ok false
      else if stepIndex < STEP_COUNT then
        match app.sequence[i]? with
        | none => .error ()
        | some row =>
          match row[stepIndex]? with
          | none => .error ()
          | some cell => .ok (cell.get store)
      else
        .ok false

/-- Boolean view of `voiceFires` (errors count as no trigger). -/
def firesOk (app : App) (store : List Bool) (g i : Nat) : Bool :=
  match voiceFires app store g i with
  | .ok b => b
  | .error _ => false

/-- One whole tick: the trigger decisions of all voices in order. -/
def tickTriggers (app : App) (store : List Bool) (g : Nat) :
    Except Unit (List Bool) :=
  (List.range app.voices.length).mapM (voiceFires app store g)

/-- The `while self.running` loop, given the store snapshot seen at each
tick; `global_step` starts at `g` and is incremented once per tick. -/
def runSeqAux (app : App) (g : Nat) :
    List (List Bool) → List (Nat × Except Unit (List Bool))
  | [] => []
  | store :: rest => (g, tickTriggers app store g) :: runSeqAux app (g + 1) rest

/-- `run_sequence` initialises `global_step = 0`. -/
def runSeq (app : App) (stores : List (List Bool)) :
    List (Nat × Except Unit (List Bool)) :=
  runSeqAux app 0 stores

/-- `Loop` slider (lines 125-127): `from_=0.0`, `to=STEP_COUNT`,
`resolution=1`, so the reachable values are `0, 1, ..., STEP_COUNT`. -/
def loopSliderValues : List Nat := List.range (STEP_COUNT + 1)

/-! ## numpy helpers shared by the signal-processing embeddings -/

/-- `np.linspace(a, b, num)`: `num` evenly spaced points from `a` to
`b` inclusive; `num = 1` gives `[a]`, `num = 0` gives `[]`. -/
def linspace (a b : ℚ) (num : Nat) : List ℚ :=
  if num = 1 then [a]
  else (List.range num).map
    (fun j : ℕ => a + (b - a) * (j : ℚ) / ((num : ℚ) - 1))

/-- `np.max` over a list (sources only apply it to nonempty lists). -/
def npMax (l : List ℚ) : ℚ := l.foldl max (l.headD 0)

/-- `np.clip(x, lo, hi)`. -/
def npClip (x lo hi : ℚ) : ℚ := max lo (min x hi)

/-- Python `int()` / C float-to-int conversion truncates toward zero. -/
def ratTrunc (q : ℚ) : ℤ := if 0 ≤ q then ⌊q⌋ else ⌈q⌉

/-- Python `int()` of a nonnegative float, as a sample count. -/
def pyIntNat (q : ℚ) : Nat := (⌊q⌋).toNat

/-! ## Spectral EQ (`apply_eq`, lines 19-31)

`apply_eq` takes the forward real transform, scales each frequency bin
by the gain of the band containing it, and inverse-transforms.  The
transforms themselves are treated abstractly: `applyEqGains` is the
bin-scaling loop between them, acting on the list of bin amplitudes
(one scalar per bin of `rfft` output for a length-`n` buffer).  The
band structure — `rfftfreq`, `np.max`, `np.linspace` band limits and
the half-open membership tests — is taken verbatim from the source. -/

/-- `np.fft.rfftfreq(n, d)`: frequencies `k / (d*n)` for
`k = 0, ..., n/2`. -/
def rfftfreq (n : Nat) (d : ℚ) : List ℚ :=
  (List.range (n / 2 + 1)).map (fun k => (k : ℚ) / (d * n))

/-- Lines 24-28: `band_limits = np.linspace(0, np.max(freqs),
len(eq_values) + 1)`; for each band `i` the bins with
`band_limits[i] <= f < band_limits[i+1]` are multiplied by
`eq_values[i]`. -/
def applyEqGains (bins : List ℚ) (eqValues : List ℚ) (n : Nat) : List ℚ :=
  let freqs := rfftfreq n (1 / SAMPLE_RATE)
  let bandLimits := linspace 0 (npMax freqs) (eqValues.length + 1)
  (List.range eqValues.length).foldl
    (fun acc i =>
      List.zipWith
        (fun b f =>
          if bandLimits.getD i 0 ≤ f ∧ f < bandLimits.getD (i + 1) 0 then
            b * eqValues.getD i 1
          else b)
        acc freqs)
    bins

/-! ## ADSR envelope (`apply_adsr`, lines 251-278)

Section lengths are `int(sample_rate * x)`; the sustain length is
`max(total - (attack+decay+release samples), 0)` (Nat subtraction).
Each ramp is a squared `np.linspace`; the concatenation is zero-padded
or truncated to exactly the buffer length, then multiplied into both
stereo channels. -/

def squared (q : ℚ) : ℚ := q * q

def adsrEnvelope (totalSamples : Nat) (sampleRate : Nat)
    (attack decay sustain release : ℚ) : List ℚ :=
  let attackSamples := pyIntNat ((sampleRate : ℚ) * attack)
  let decaySamples := pyIntNat ((sampleRate : ℚ) * decay)
  let releaseSamples := pyIntNat ((sampleRate : ℚ) * release)
  let sustainSamples := totalSamples - (attackSamples + decaySamples + releaseSamples)
  let attackCurve := (linspace 0 1 attackSamples).map squared
  let decayCurve := (linspace 1 sustain decaySamples).map squared
  let sustainCurve := List.replicate sustainSamples (squared sustain)
  let releaseCurve := (linspace sustain 0 releaseSamples).map squared
  let envelope := attackCurve ++ decayCurve ++ sustainCurve ++ releaseCurve
  if envelope.length < totalSamples then
    envelope ++ List.replicate (totalSamples - envelope.length) 0
  else
    envelope.take totalSamples

/-- `apply_adsr` on a buffer of stereo frames: the scalar envelope value
at each index multiplies both channels (`envelope[:, np.newaxis]`). -/
def applyAdsr (samples : List (ℚ × ℚ)) (attack decay sustain release : ℚ)
    (sampleRate : Nat) : List (ℚ × ℚ) :=
  let envelope := adsrEnvelope samples.length sampleRate attack decay sustain release
  List.zipWith (fun p e => (p.1 * e, p.2 * e)) samples envelope

/-! ## Stereo mixer / quantizer (`generate_pygame_tone`, lines 47-52)

After EQ and distortion the float buffer is scaled by `2**15 - 1`,
clipped to `[-32768, 32767]`, and each channel is the `np.int16`
conversion (truncation toward zero) of the clipped signal times the
channel gain.  The theorems below show the value handed to `np.int16`
is always in range, so no wraparound occurs and truncation is the
exact conversion. -/

def quantizeStereo (samples : List ℚ) (leftVol rightVol : ℚ) :
    List (ℤ × ℤ) :=
  let scaled := samples.map (fun s => s * (2 ^ 15 - 1))
  let clipped := scaled.map (fun s => npClip s (-32768) 32767)
  clipped.map (fun s => (ratTrunc (s * leftVol), ratTrunc (s * rightVol)))

/-- Both channels of a quantized frame lie in the signed 16-bit range. -/
def inRange16 (p : ℤ × ℤ) : Bool :=
  decide (-32768 ≤ p.1) && decide (p.1 ≤ 32767) &&
    decide (-32768 ≤ p.2) && decide (p.2 ≤ 32767)

/-! ## Distortion stage (`generate_pygame_tone`, lines 42-45)

`if distortion_amount > 0.0: gain = 1 + distortion_amount * 10;
samples = samples * gain; samples = np.tanh(samples)`.  Modelled over
the reals because `tanh` is transcendental. -/

noncomputable def distort (samples : List ℝ) (amount : ℝ) : List ℝ :=
  if 0 < amount then
    (samples.map (fun s => s * (1 + amount * 10))).map Real.tanh
  else
    samples

/-- Every element of the list lies in `[-1, 1]`. -/
def allInUnitInterval (l : List ℝ) : Prop := ∀ y ∈ l, -1 ≤ y ∧ y ≤ 1

/-! ## Pattern persistence (`load_pattern`, lines 182-206)

A persisted document is JSON; a missing dictionary key raises
`KeyError`, modelled as `Except.error`.  Present fields are applied in
source order: the `sequence` rows (with in-range guards on row and
column), then each voice's `params` (keys not present among the
voice's sliders are skipped by the `if k in ...` guard), `eq` entries
(with an in-range guard), and the `left_vol`, `right_vol` and
`distortion` entries (unguarded dictionary accesses).  Voice documents
beyond the app's voice count are skipped by the `if i < len(...)`
guard. -/

structure VoiceDoc where
  params : Option (List (String × ℚ))
  eq : Option (List ℚ)
  left_vol : Option ℚ
  right_vol : Option ℚ
  distortion : Option ℚ
deriving DecidableEq, Repr

structure PatternDoc where
  sequence : Option (List (List Bool))
  voices : Option (List VoiceDoc)
deriving DecidableEq, Repr

structure VoiceMem where
  params : List (String × ℚ)
  eq : List ℚ
  left_vol : ℚ
  right_vol : ℚ
  distortion : ℚ
deriving DecidableEq, Repr

structure Mem where
  sequence : List (List Bool)
  voices : List VoiceMem
deriving DecidableEq, Repr

/-- `if k in self.voices[i]["params"]: self.voices[i]["params"][k].set(v)`. -/
def setParam (ps : List (String × ℚ)) (k : String) (v : ℚ) :
    List (String × ℚ) :=
  if ps.any (fun p => p.1 = k) then
    ps.map (fun p => if p.1 = k then (p.1, v) else p)
  else
    ps

/-- Lines 191-194: positional sequence update with in-range guards. -/
def applySeqDoc (memSeq : List (List Bool)) (rows : List (List Bool)) :
    List (List Bool) :=
  rows.enum.foldl
    (fun acc (ir : Nat × List Bool) =>
      ir.2.enum.foldl
        (fun acc2 (jv : Nat × Bool) =>
          if ir.1 < acc2.length ∧ jv.1 < (acc2.getD ir.1 []).length then
            acc2.set ir.1 ((acc2.getD ir.1 []).set jv.1 jv.2)
          else acc2)
        acc)
    memSeq

/-- Lines 198-206: apply one voice document to one in-memory voice. -/
def loadVoiceDoc (vm : VoiceMem) (vd : VoiceDoc) : Except String VoiceMem :=
  match vd.params with
  | none => .error "KeyError: params"
  | some ps =>
    let vm1 := { vm with
      params := ps.foldl (fun acc (kv : String × ℚ) => setParam acc kv.1 kv.2) vm.params }
    match vd.eq with
    | none => .error "KeyError: eq"
    | some eqs =>
      let vm2 := { vm1 with
        eq := eqs.enum.foldl
          (fun acc (jv : Nat × ℚ) =>
            if jv.1 < acc.length then acc.set jv.1 jv.2 else acc)
          vm1.eq }
      match vd.left_vol with
      | none => .error "KeyError: left_vol"
      | some lv =>
        match vd.right_vol with
        | none => .error "KeyError: right_vol"
        | some rv =>
          match vd.distortion with
          | none => .error "KeyError: distortion"
          | some ds =>
            .ok { vm2 with left_vol := lv, right_vol := rv, distortion := ds }

/-- Lines 196-206: `for i, voice_data in enumerate(data["voices"]):
if i < len(self.voices): ...` — extra documents are skipped. -/
def loadVoices : List VoiceMem → List VoiceDoc → Except String (List VoiceMem)
  | vms, [] => .ok vms
  | [], _ => .ok []
  | vm :: vms, vd :: vds =>
    match loadVoiceDoc vm vd with
    | .error e => .error e
    | .ok vm1 =>
      match loadVoices vms vds with
      | .error e => .error e
      | .ok rest => .ok (vm1 :: rest)

/-- `load_pattern` after the file has been parsed to `doc`. -/
def loadPattern (mem : Mem) (doc : PatternDoc) : Except String Mem :=
  match doc.sequence with
  | none => .error "KeyError: sequence"
  | some rows =>
    let mem1 := { mem with sequence := applySeqDoc mem.sequence rows }
    match doc.voices with
    | none => .error "KeyError: voices"
    | some vds =>
      match loadVoices mem1.voices vds with
      | .error e => .error e
      | .ok voices => .ok { mem1 with voices := voices }

/-! ## General lemmas about the sequencer embedding -/

theorem rowVars_getElem (i p : Nat) (hp : p < STEP_COUNT + 1) :
    (rowVars i)[p]? = some ⟨1 + i * (STEP_COUNT + 1) + p⟩ := by
  cases p with
  | zero => simp [rowVars]
  | succ q =>
    have hq : q < STEP_COUNT := Nat.lt_of_succ_lt_succ hp
    simp only [rowVars, List.getElem?_cons_succ, List.getElem?_map,
      List.getElem?_range hq]
    simp only [Option.map_some', Option.some.injEq, TkVar.mk.injEq]
    ring

theorem buildApp_voices_getElem (loops : List Nat) (i l : Nat)
    (hi : loops[i]? = some l) :
    (buildApp loops).voices[i]? = some ⟨l, ⟨0⟩⟩ := by
  simp [buildApp, List.getElem?_map, hi]

theorem buildApp_sequence_getElem (loops : List Nat) (i : Nat)
    (hn : i < NUM_VOICES) :
    (buildApp loops).sequence[i]? = some (rowVars i) := by
  simp [buildApp, List.getElem?_map, List.getElem?_range hn]

/-- The whole tick-path decision for a constructed app: a voice with a
legal nonzero loop length consults the shared mute cell 0 and, when it
is unmuted, the row cell at position `g % l` — which is the row's own
mute variable when `g % l = 0` and step `g % l - 1` otherwise. -/
theorem voiceFires_buildApp (loops : List Nat) (store : List Bool) (g i l : Nat)
    (hi : loops[i]? = some l) (hl : l ≠ 0) (hn : i < NUM_VOICES)
    (hl32 : l ≤ STEP_COUNT) :
    voiceFires (buildApp loops) store g i =
      if TkVar.get store ⟨0⟩ = true then .ok false
      else .ok (TkVar.get store ⟨1 + i * (STEP_COUNT + 1) + g % l⟩) := by
  have hlt : g % l < STEP_COUNT :=
    lt_of_lt_of_le (Nat.mod_lt _ (Nat.pos_of_ne_zero hl)) hl32
  have hrow := rowVars_getElem i (g % l) (by omega)
  simp only [voiceFires, buildApp_voices_getElem loops i l hi,
    stepIndexOf, if_neg hl, buildApp_sequence_getElem loops i hn,
    hrow, if_pos hlt]

theorem runSeqAux_map_fst (app : App) :
    ∀ (stores : List (List Bool)) (g : Nat),
      (runSeqAux app g stores).map Prod.fst = List.range' g stores.length
  | [], _ => rfl
  | store :: rest, g => by
    simp [runSeqAux, runSeqAux_map_fst app rest (g + 1), List.range'_succ]

theorem runSeq_map_fst (app : App) (stores : List (List Bool)) :
    (runSeq app stores).map Prod.fst = List.range stores.length := by
  rw [runSeq, runSeqAux_map_fst, List.range_eq_range']

/-! ## Claim C1 -/

/-- C1: the claim states that with loop_length 4 and pattern bits
`[1,0,1,0]` at step indices 0..3 the voice fires at global steps
0, 2, 4, 6, the grid cell consulted being step `global_step mod 4` of
the voice's step row.  The code instead consults `sequence[i][step_index]`
where the row stores the Mute checkbox variable at position 0 and step
`j` at position `j+1`, so with step cells 0 and 2 set (store cells 2
and 4) the voice fires at global steps 1, 3, 5, 7. -/
theorem c1_sequencer_off_by_one :
    (List.range 8).filter
        (fun g => firesOk (buildApp [4, 32, 32, 32])
          ((initStore.set 2 true).set 4 true) g 0) = [1, 3, 5, 7] ∧
      [1, 3, 5, 7] ≠ [0, 2, 4, 6] := by
  constructor
  · decide
  · decide

/-! ## Claim C8 -/

/-- C8: while the mute flag consulted for a voice is set the voice
produces no trigger; the global step counter advances by one on every
tick regardless; and a tick at global step 5 with the mute flag clear
consults the row cell at position `5 % loop_length` — the phase is
derived from the global step, not restarted. -/
theorem c8_mute_phase (loops : List Nat) (stores : List (List Bool))
    (storeA storeB : List Bool) (g i l : Nat)
    (hi : loops[i]? = some l) (hl : l ≠ 0) (hn : i < NUM_VOICES)
    (hl32 : l ≤ STEP_COUNT)
    (hA : TkVar.get storeA ⟨0⟩ = true) (hB : TkVar.get storeB ⟨0⟩ = false) :
    voiceFires (buildApp loops) storeA g i = .ok false ∧
      (runSeq (buildApp loops) stores).map Prod.fst = List.range stores.length ∧
      voiceFires (buildApp loops) storeB 5 i =
        .ok (TkVar.get storeB ⟨1 + i * (STEP_COUNT + 1) + 5 % l⟩) := by
  refine ⟨?_, runSeq_map_fst _ _, ?_⟩
  · rw [voiceFires_buildApp loops storeA g i l hi hl hn hl32, if_pos hA]
  · rw [voiceFires_buildApp loops storeB 5 i l hi hl hn hl32, if_neg (by simp [hB])]

/-- C8 witness: loops `[4,32,32,32]`, voice 0, three ticks; the muted
store has cell 0 set, the unmuted store is the post-construction store
with step 1 of voice 0 set (cell 3), which is the cell consulted at
global step 5 (5 mod 4 = 1). -/
theorem c8_mute_phase_witness :
    voiceFires (buildApp [4, 32, 32, 32]) (initStore.set 0 true) 2 0 = .ok false ∧
      (runSeq (buildApp [4, 32, 32, 32]) [[], [], []]).map Prod.fst =
        List.range ([[], [], []] : List (List Bool)).length ∧
      voiceFires (buildApp [4, 32, 32, 32]) (initStore.set 3 true) 5 0 =
        .ok (TkVar.get (initStore.set 3 true) ⟨1 + 0 * (STEP_COUNT + 1) + 5 % 4⟩) :=
  c8_mute_phase [4, 32, 32, 32] [[], [], []] (initStore.set 0 true)
    (initStore.set 3 true) 2 0 4 (by decide) (by decide) (by decide)
    (by decide) (by decide) (by decide)

/-! ## Claim C9 -/

/-- C9 counterexample: the claim states the per-row Mute variables are
never read by the tick loop.  They are: the two stores below differ
only in cell 1 — voice 0's per-row Mute variable, untouched step
cells — yet the trigger decision at global step 0 differs, because
`sequence[0][0]` is that variable. -/
theorem c9_rowmute_is_read :
    firesOk (buildApp [4, 32, 32, 32]) (initStore.set 1 true) 0 0 = true ∧
      firesOk (buildApp [4, 32, 32, 32]) initStore 0 0 = false := by
  constructor
  · decide
  · decide

/-- C9 (amended): every voice's `"mute"` entry is the single shared
`self.mute_var` (cell 0), so setting it suppresses triggers for every
voice; the per-row Mute variables are distinct variables that the tick
loop never consults as a mute flag — but the row stores its Mute
variable at position 0, so the tick loop does read it as the grid cell
whenever `g % loop_length = 0`. -/
theorem c9_shared_mute (loops : List Nat) (store store2 : List Bool)
    (g g2 i l : Nat) (hi : loops[i]? = some l) (hl : l ≠ 0)
    (hn : i < NUM_VOICES) (hl32 : l ≤ STEP_COUNT)
    (hmute : TkVar.get store ⟨0⟩ = true)
    (hm2 : TkVar.get store2 ⟨0⟩ = false) (hg : g2 % l = 0) :
    ((buildApp loops).voices[i]?).map Voice.mute =
        some (buildApp loops).muteVar ∧
      voiceFires (buildApp loops) store g i = .ok false ∧
      (rowVars i)[0]? ≠ some (buildApp loops).muteVar ∧
      voiceFires (buildApp loops) store2 g2 i =
        .ok (TkVar.get store2 ⟨1 + i * (STEP_COUNT + 1)⟩) := by
  refine ⟨?_, ?_, ?_, ?_⟩
  · rw [buildApp_voices_getElem loops i l hi]; rfl
  · rw [voiceFires_buildApp loops store g i l hi hl hn hl32, if_pos hmute]
  · rw [rowVars_getElem i 0 (by omega)]
    simp [buildApp, TkVar.mk.injEq]
  · rw [voiceFires_buildApp loops store2 g2 i l hi hl hn hl32,
      if_neg (by simp [hm2]), hg]
    simp

/-- C9 witness: voice 1 of a four-voice app with the shared flag set in
one store and clear in the other, at global steps 7 (loop 4) and 8
(8 mod 4 = 0). -/
theorem c9_shared_mute_witness :
    ((buildApp [4, 4, 32, 32]).voices[1]?).map Voice.mute =
        some (buildApp [4, 4, 32, 32]).muteVar ∧
      voiceFires (buildApp [4, 4, 32, 32]) (initStore.set 0 true) 7 1 = .ok false ∧
      (rowVars 1)[0]? ≠ some (buildApp [4, 4, 32, 32]).muteVar ∧
      voiceFires (buildApp [4, 4, 32, 32]) initStore 8 1 =
        .ok (TkVar.get initStore ⟨1 + 1 * (STEP_COUNT + 1)⟩) :=
  c9_shared_mute [4, 4, 32, 32] (initStore.set 0 true) initStore 7 8 1 4
    (by decide) (by decide) (by decide) (by decide) (by decide) (by decide)
    (by decide)

/-! ## Claim C10 -/

/-- C10: `loop_length = 0` is reachable from the Loop slider (its range
starts at 0), and the step computation `global_step % loop_length`
raises `ZeroDivisionError` there; for every `loop_length ≥ 1` it is
total and returns `global_step mod loop_length`. -/
theorem c10_loop_zero_division (g l : Nat) (hl : 1 ≤ l) :
    0 ∈ loopSliderValues ∧
      stepIndexOf g 0 = .error () ∧
      stepIndexOf g l = .ok (g % l) := by
  refine ⟨by decide, rfl, ?_⟩
  rw [stepIndexOf, if_neg (by omega)]

/-- C10 witness at `g = 7`, `l = 4`. -/
theorem c10_loop_zero_division_witness :
    0 ∈ loopSliderValues ∧
      stepIndexOf 7 0 = .error () ∧
      stepIndexOf 7 4 = .ok (7 % 4) :=
  c10_loop_zero_division 7 4 (by decide)

/-! ## Claim C2 -/

/-- C2 counterexample: the claim states that a document with a missing
required field keeps the current value and that the load never fails.
A document without the `sequence` key makes `load_pattern` raise
`KeyError` at `data["sequence"]` instead. -/
theorem c2_load_missing_sequence_fails :
    loadPattern { sequence := [[true]], voices := [] }
        { sequence := none, voices := some [] } =
      .error "KeyError: sequence" := rfl

/-- C2 (amended): unknown parameter keys are ignored (setting a key not
among the voice's sliders leaves the params unchanged), but the load
does not degrade field-by-field on missing required fields: a document
without `sequence` fails the whole load with `KeyError`, and a voice
document without `left_vol` (likewise `params`, `eq`, `right_vol`,
`distortion`) fails its voice load with `KeyError`. -/
theorem c2_load_required_fields (mem : Mem) (doc : PatternDoc)
    (ps : List (String × ℚ)) (k : String) (v : ℚ)
    (vm : VoiceMem) (vd : VoiceDoc)
    (hk : ∀ p ∈ ps, p.1 ≠ k) (hs : doc.sequence = none)
    (hlv : vd.left_vol = none) :
    loadPattern mem doc = .error "KeyError: sequence" ∧
      setParam ps k v = ps ∧
      (loadVoiceDoc vm vd).isOk = false := by
  refine ⟨?_, ?_, ?_⟩
  · simp [loadPattern, hs]
  · have hany : ps.any (fun p => p.1 = k) = false := by
      simp only [List.any_eq_false, decide_eq_true_eq]
      exact hk
    simp [setParam, hany]
  · cases hp : vd.params <;> cases he : vd.eq <;>
      simp [loadVoiceDoc, hp, he, hlv, Except.isOk, Except.toBool]

/-- C2 witness: a one-entry params list with a set of an absent key, a
document missing `sequence`, and a voice document missing `left_vol`. -/
theorem c2_load_required_fields_witness :
    loadPattern { sequence := [[true]], voices := [] }
        { sequence := none, voices := none } = .error "KeyError: sequence" ∧
      setParam [("A", (1:ℚ))] "P1" 2 = [("A", (1:ℚ))] ∧
      (loadVoiceDoc { params := [], eq := [], left_vol := 0, right_vol := 0, distortion := 0 }
        { params := some [], eq := some [], left_vol := none,
          right_vol := some 1, distortion := some 1 }).isOk = false :=
  c2_load_required_fields
    { sequence := [[true]], voices := [] }
    { sequence := none, voices := none }
    [("A", (1:ℚ))] "P1" 2
    { params := [], eq := [], left_vol := 0, right_vol := 0, distortion := 0 }
    { params := some [], eq := some [], left_vol := none,
      right_vol := some 1, distortion := some 1 }
    (by simp) rfl rfl

/-! ## Claim C4 -/

theorem adsrEnvelope_length (totalSamples sampleRate : Nat)
    (a d s r : ℚ) :
    (adsrEnvelope totalSamples sampleRate a d s r).length = totalSamples := by
  simp only [adsrEnvelope]
  split
  next h =>
    simp only [List.length_append, List.length_replicate] at h ⊢
    omega
  next h =>
    simp only [List.length_take]
    omega

/-- C4: for every buffer and every nonnegative attack/decay/release
setting (the sliders range over `[0, 1]`), the envelope built by
`apply_adsr` has exactly the buffer's length, and the enveloped output
buffer has exactly as many frames as the input. -/
theorem c4_adsr_length (samples : List (ℚ × ℚ)) (a d s r : ℚ) (sr : Nat)
    (_ha : 0 ≤ a) (_hd : 0 ≤ d) (_hr : 0 ≤ r) :
    (adsrEnvelope samples.length sr a d s r).length = samples.length ∧
      (applyAdsr samples a d s r sr).length = samples.length := by
  have h := adsrEnvelope_length samples.length sr a d s r
  exact ⟨h, by simp [applyAdsr, List.length_zipWith, h]⟩

/-- C4 witness at the degenerate setting attack = decay = release = 0.9
on a three-frame buffer (sample rate 4, so the section lengths sum to
9 > 3 and the envelope is truncated to the buffer length). -/
theorem c4_adsr_length_witness :
    (adsrEnvelope ([((1:ℚ), (1:ℚ)), (2, 2), (3, 3)]).length 4
        (9/10) (9/10) (1/2) (9/10)).length =
      ([((1:ℚ), (1:ℚ)), (2, 2), (3, 3)]).length ∧
      (applyAdsr [((1:ℚ), (1:ℚ)), (2, 2), (3, 3)]
          (9/10) (9/10) (1/2) (9/10) 4).length =
        ([((1:ℚ), (1:ℚ)), (2, 2), (3, 3)]).length :=
  c4_adsr_length [((1:ℚ), (1:ℚ)), (2, 2), (3, 3)] (9/10) (9/10) (1/2) (9/10) 4
    (by norm_num) (by norm_num) (by norm_num)

/-! ## Claim C5 -/

theorem linspace_length (a b : ℚ) (num : Nat) :
    (linspace a b num).length = num := by
  rw [linspace]
  split
  next h => simp [h]
  next h => rw [List.length_map, List.length_range]

theorem linspace_getElem_zero (a b : ℚ) (num : Nat) (hn : 1 ≤ num) :
    (linspace a b num)[0]? = some a := by
  rw [linspace]
  split
  next h => simp
  next h =>
    have h0 : 0 < num := hn
    rw [List.getElem?_map, List.getElem?_range h0, Option.map_some']
    norm_num

theorem linspace_getElem_last (a b : ℚ) (num : Nat) (hn : 2 ≤ num) :
    (linspace a b num)[num - 1]? = some b := by
  rw [linspace]
  split
  next h => omega
  next h =>
    have hlt : num - 1 < num := by omega
    have hc : ((num - 1 : ℕ) : ℚ) = (num : ℚ) - 1 := by
      push_cast [Nat.cast_sub (by omega : 1 ≤ num)]
      ring
    have hne : (num : ℚ) - 1 ≠ 0 := by
      have h2 : (2 : ℚ) ≤ (num : ℚ) := by exact_mod_cast hn
      intro hz
      linarith
    rw [List.getElem?_map, List.getElem?_range hlt, Option.map_some']
    rw [hc, mul_div_assoc, div_self hne, mul_one]
    congr 1
    ring

/-- When the attack + decay + release sample counts fit in the buffer,
the envelope is exactly the four concatenated segments (the pad and
truncate branches are both the identity). -/
theorem adsrEnvelope_eq_concat (N sr : Nat) (a d s r : ℚ)
    (h : pyIntNat ((sr : ℚ) * a) + pyIntNat ((sr : ℚ) * d) +
      pyIntNat ((sr : ℚ) * r) ≤ N) :
    adsrEnvelope N sr a d s r =
      (linspace 0 1 (pyIntNat ((sr : ℚ) * a))).map squared ++
        ((linspace 1 s (pyIntNat ((sr : ℚ) * d))).map squared ++
          (List.replicate
              (N - (pyIntNat ((sr : ℚ) * a) + pyIntNat ((sr : ℚ) * d) +
                pyIntNat ((sr : ℚ) * r))) (squared s) ++
            (linspace s 0 (pyIntNat ((sr : ℚ) * r))).map squared)) := by
  have hlen :
      ((linspace 0 1 (pyIntNat ((sr : ℚ) * a))).map squared ++
        ((linspace 1 s (pyIntNat ((sr : ℚ) * d))).map squared ++
          (List.replicate
              (N - (pyIntNat ((sr : ℚ) * a) + pyIntNat ((sr : ℚ) * d) +
                pyIntNat ((sr : ℚ) * r))) (squared s) ++
            (linspace s 0 (pyIntNat ((sr : ℚ) * r))).map squared))).length = N := by
    simp [linspace_length]
    omega
  simp only [adsrEnvelope, List.append_assoc]
  rw [hlen, if_neg (lt_irrefl N)]
  exact List.take_of_length_le (le_of_eq hlen)

/-- C5 counterexample: the claim requires `envelope[last] ≈ 0` for all
attack, decay, release > 0 and sustain in `[0, 1]`.  At sample rate 4,
buffer length 4, attack = decay = release = 0.9 and sustain = 0 the
section lengths are 3 + 3 + 3 > 4, the envelope is truncated inside
the ramps, and its last entry is 1, not approximately 0. -/
theorem c5_envelope_end_counterexample :
    (adsrEnvelope 4 4 (9/10) (9/10) 0 (9/10)).getLast?.getD 42 = 1 ∧
      ¬ |(adsrEnvelope 4 4 (9/10) (9/10) 0 (9/10)).getLast?.getD 42| ≤ 1/100 := by
  have henv : adsrEnvelope 4 4 (9/10) (9/10) 0 (9/10) = [0, 1/4, 1, 1] := by
    have hcount : pyIntNat ((4:Nat) * (9/10) : ℚ) = 3 := by
      have h : ((4:Nat) : ℚ) * (9/10) = 18/5 := by norm_num
      have h2 : (⌊(18:ℚ)/5⌋) = 3 := by norm_num
      rw [pyIntNat, h, h2]; rfl
    have hr3 : List.range 3 = [0, 1, 2] := rfl
    have hatt : linspace 0 1 3 = [0, 1/2, 1] := by norm_num [linspace, hr3]
    have hdec : linspace 1 0 3 = [1, 1/2, 0] := by norm_num [linspace, hr3]
    have hrel : linspace 0 0 3 = [0, 0, 0] := by norm_num [linspace, hr3]
    simp only [adsrEnvelope, hcount, hatt, hdec, hrel]
    norm_num [Sauce.squared, List.replicate]
  have h3 : ([0, 1/4, 1, 1] : List ℚ).getLast?.getD 42 = 1 := rfl
  rw [henv]
  refine ⟨h3, ?_⟩
  rw [h3]
  norm_num

/-- C5 (amended): when the attack count `int(sr*a)` is at least 1, the
release count `int(sr*r)` is at least 2, and the attack + decay +
release counts fit in the buffer, the squared-variant envelope starts
at exactly 0, equals `sustain²` on the sustain plateau, and ends at
exactly 0.  (For larger attack/decay/release — e.g. 0.9 s each on a
0.5 s buffer — the envelope is truncated and need not end near 0.) -/
theorem c5_envelope_shape (N sr : Nat) (a d s r : ℚ) (j : Nat)
    (h1 : 1 ≤ pyIntNat ((sr : ℚ) * a))
    (h2 : 2 ≤ pyIntNat ((sr : ℚ) * r))
    (hsum : pyIntNat ((sr : ℚ) * a) + pyIntNat ((sr : ℚ) * d) +
      pyIntNat ((sr : ℚ) * r) ≤ N)
    (hj1 : pyIntNat ((sr : ℚ) * a) + pyIntNat ((sr : ℚ) * d) ≤ j)
    (hj2 : j < N - pyIntNat ((sr : ℚ) * r)) :
    (adsrEnvelope N sr a d s r)[0]? = some 0 ∧
      (adsrEnvelope N sr a d s r)[j]? = some (squared s) ∧
      (adsrEnvelope N sr a d s r)[N - 1]? = some 0 := by
  have henv := adsrEnvelope_eq_concat N sr a d s r hsum
  have lenA : ((linspace 0 1 (pyIntNat ((sr : ℚ) * a))).map squared).length =
      pyIntNat ((sr : ℚ) * a) := by simp [linspace_length]
  have lenD : ((linspace 1 s (pyIntNat ((sr : ℚ) * d))).map squared).length =
      pyIntNat ((sr : ℚ) * d) := by simp [linspace_length]
  have lenS : (List.replicate
      (N - (pyIntNat ((sr : ℚ) * a) + pyIntNat ((sr : ℚ) * d) +
        pyIntNat ((sr : ℚ) * r))) (squared s)).length =
      N - (pyIntNat ((sr : ℚ) * a) + pyIntNat ((sr : ℚ) * d) +
        pyIntNat ((sr : ℚ) * r)) := by simp
  refine ⟨?_, ?_, ?_⟩
  · rw [henv, List.getElem?_append_left (by rw [lenA]; omega),
      List.getElem?_map, linspace_getElem_zero 0 1 _ h1]
    simp [squared]
  · rw [henv, List.getElem?_append_right (by rw [lenA]; omega), lenA,
      List.getElem?_append_right (by rw [lenD]; omega), lenD,
      List.getElem?_append_left (by rw [lenS]; omega)]
    rw [List.getElem?_replicate_of_lt (by omega)]
  · rw [henv, List.getElem?_append_right (by rw [lenA]; omega), lenA,
      List.getElem?_append_right (by rw [lenD]; omega), lenD,
      List.getElem?_append_right (by rw [lenS]; omega), lenS]
    have hidx : N - 1 - pyIntNat ((sr : ℚ) * a) - pyIntNat ((sr : ℚ) * d) -
        (N - (pyIntNat ((sr : ℚ) * a) + pyIntNat ((sr : ℚ) * d) +
          pyIntNat ((sr : ℚ) * r))) = pyIntNat ((sr : ℚ) * r) - 1 := by omega
    rw [hidx, List.getElem?_map, linspace_getElem_last s 0 _ h2]
    simp [squared]

/-- C5 witness: sample rate 10, attack 0.2 (2 samples), decay 0.1
(1 sample), release 0.2 (2 samples), sustain 1/2, buffer length 10;
the plateau occupies indices 3..7 and index 4 carries `(1/2)² = 1/4`. -/
theorem c5_envelope_shape_witness :
    (adsrEnvelope 10 10 (2/10) (1/10) (1/2) (2/10))[0]? = some 0 ∧
      (adsrEnvelope 10 10 (2/10) (1/10) (1/2) (2/10))[4]? = some (squared (1/2)) ∧
      (adsrEnvelope 10 10 (2/10) (1/10) (1/2) (2/10))[10 - 1]? = some 0 := by
  have hac : pyIntNat ((10:Nat) * (2/10) : ℚ) = 2 := by
    have h : ((10:Nat) : ℚ) * (2/10) = 2 := by norm_num
    have h2 : ⌊(2:ℚ)⌋ = 2 := by norm_num
    rw [pyIntNat, h, h2]; rfl
  have hdc : pyIntNat ((10:Nat) * (1/10) : ℚ) = 1 := by
    have h : ((10:Nat) : ℚ) * (1/10) = 1 := by norm_num
    have h2 : ⌊(1:ℚ)⌋ = 1 := by norm_num
    rw [pyIntNat, h, h2]; rfl
  exact c5_envelope_shape 10 10 (2/10) (1/10) (1/2) (2/10) 4
    (by rw [hac]; try omega) (by rw [hac]; try omega)
    (by rw [hac, hdc]; try omega) (by rw [hac, hdc]; try omega)
    (by rw [hac]; try omega)

/-! ## Claim C3 -/

theorem rangeSix : List.range 6 = [0, 1, 2, 3, 4, 5] := rfl

theorem c3freqs :
    rfftfreq 8 (1 / (SAMPLE_RATE : ℚ)) = [0, 11025/2, 11025, 33075/2, 22050] := by
  have hr : List.range 5 = [0, 1, 2, 3, 4] := rfl
  norm_num [rfftfreq, SAMPLE_RATE, hr]

theorem c3max : npMax [0, 11025/2, 11025, 33075/2, 22050] = 22050 := by
  norm_num [npMax, List.foldl, max_def]

theorem c3limits :
    linspace 0 22050 7 = [0, 3675, 7350, 11025, 14700, 18375, 22050] := by
  have hr : List.range 7 = [0, 1, 2, 3, 4, 5, 6] := rfl
  norm_num [linspace, hr]

/-- C3: the claim states that every non-negative frequency bin is
scaled by its band's gain, the last band absorbing the boundary bin
(the bin at `np.max(freqs)`) inclusively.  In the code every band —
including the last — tests `freqs < band_limits[i+1]` with a strict
bound whose final value is exactly `np.max(freqs)`, so the boundary
bin is scaled by no band.  For an 8-sample buffer (bins at 0, 5512.5,
11025, 16537.5, 22050 Hz) with all six gains 0 every bin is zeroed
except the 22050 Hz boundary bin, which passes through unchanged; and
changing the last band's gain from 1 to 0 does not change any bin —
the output is the same, so the maximum-frequency bin's amplitude does
not depend on the last band's gain. -/
theorem c3_eq_boundary_bin_unscaled :
    applyEqGains [1, 1, 1, 1, 1] (List.replicate 6 0) 8 = [0, 0, 0, 0, 1] ∧
      applyEqGains [1, 1, 1, 1, 1] [1, 1, 1, 1, 1, 1] 8 = [1, 1, 1, 1, 1] ∧
      applyEqGains [1, 1, 1, 1, 1] [1, 1, 1, 1, 1, 0] 8 = [1, 1, 1, 1, 1] := by
  have hrep : List.replicate 6 (0:ℚ) = [0, 0, 0, 0, 0, 0] := rfl
  refine ⟨?_, ?_, ?_⟩ <;>
  · simp only [applyEqGains, hrep, List.length_cons, List.length_nil, c3freqs, c3max]
    norm_num only []
    rw [c3limits]
    simp only [rangeSix, List.foldl, List.zipWith, List.getD,
      List.getElem?_cons_zero, List.getElem?_cons_succ, Option.getD_some]
    norm_num

/-! ## Claim C6 -/

theorem mulVolInRange (c v : ℚ) (hc1 : -32768 ≤ c) (hc2 : c ≤ 32767)
    (hv1 : 0 ≤ v) (hv2 : v ≤ 1) :
    -32768 ≤ c * v ∧ c * v ≤ 32767 := by
  constructor <;> nlinarith

theorem ratTrunc_mem (q : ℚ) (h1 : -32768 ≤ q) (h2 : q ≤ 32767) :
    -32768 ≤ ratTrunc q ∧ ratTrunc q ≤ 32767 := by
  rw [ratTrunc]
  split
  next h =>
    have hnn : (0:ℤ) ≤ ⌊q⌋ := Int.floor_nonneg.mpr h
    have hub : ⌊q⌋ ≤ ⌊(32767:ℚ)⌋ := Int.floor_le_floor h2
    have h3 : ⌊(32767:ℚ)⌋ = 32767 := by norm_num
    omega
  next h =>
    have hup : ⌈q⌉ ≤ ⌈(0:ℚ)⌉ := Int.ceil_le_ceil (le_of_lt (not_le.mp h))
    have hz : ⌈(0:ℚ)⌉ = 0 := Int.ceil_zero
    have hlb : ⌈(-32768:ℚ)⌉ ≤ ⌈q⌉ := Int.ceil_le_ceil h1
    have h3 : ⌈(-32768:ℚ)⌉ = -32768 := by
      rw [show (-32768:ℚ) = ((-32768:ℤ):ℚ) by norm_num, Int.ceil_intCast]
    omega

/-- C6: for every pre-quantization float buffer (so in particular for
every legal tone, EQ and distortion setting feeding it) and every
left/right gain in `[0, 1]`, every channel of every quantized stereo
frame lies in `[-32768, 32767]`: the scaled signal is clipped to that
range before the per-channel gain and `np.int16` truncation, and both
operations keep it there. -/
theorem c6_quantizer_bound (samples : List ℚ) (lv rv : ℚ)
    (hl1 : 0 ≤ lv) (hl2 : lv ≤ 1) (hr1 : 0 ≤ rv) (hr2 : rv ≤ 1) :
    (quantizeStereo samples lv rv).all inRange16 = true := by
  rw [List.all_eq_true]
  intro p hp
  simp only [quantizeStereo, List.map_map, List.mem_map, Function.comp] at hp
  obtain ⟨s, hs, rfl⟩ := hp
  have hc1 : -32768 ≤ npClip (s * (2 ^ 15 - 1)) (-32768) 32767 := by
    rw [npClip]; exact le_max_left _ _
  have hc2 : npClip (s * (2 ^ 15 - 1)) (-32768) 32767 ≤ 32767 := by
    rw [npClip]; exact max_le (by norm_num) (min_le_right _ _)
  have hL := mulVolInRange _ lv hc1 hc2 hl1 hl2
  have hR := mulVolInRange _ rv hc1 hc2 hr1 hr2
  have tL := ratTrunc_mem _ hL.1 hL.2
  have tR := ratTrunc_mem _ hR.1 hR.2
  simp [inRange16, tL.1, tL.2, tR.1, tR.2]

/-- C6 witness: a buffer holding an in-range, an out-of-range and a
fractional sample, full left gain and half right gain. -/
theorem c6_quantizer_bound_witness :
    (quantizeStereo [2, -3, 1/2] 1 (1/2)).all inRange16 = true :=
  c6_quantizer_bound [2, -3, 1/2] 1 (1/2) (by norm_num) (by norm_num)
    (by norm_num) (by norm_num)

/-! ## Claim C7 -/

theorem real_tanh_mem (x : ℝ) : -1 ≤ Real.tanh x ∧ Real.tanh x ≤ 1 := by
  have hcosh : 0 < Real.cosh x := Real.cosh_pos x
  have hsq : Real.sinh x ^ 2 < Real.cosh x ^ 2 := by
    rw [Real.cosh_sq]
    linarith
  have habs := abs_lt_of_sq_lt_sq' hsq (le_of_lt hcosh)
  rw [Real.tanh_eq_sinh_div_cosh]
  constructor
  · rw [le_div_iff₀ hcosh]
    nlinarith [habs.1]
  · rw [div_le_one hcosh]
    exact le_of_lt habs.2

/-- C7: with `amount = 0` the distortion stage is skipped entirely, so
the output buffer is the input buffer; with `amount > 0` the buffer is
scaled by `gain = 1 + amount * 10` and passed through `tanh`
elementwise, and every resulting sample lies in `[-1, 1]`. -/
theorem c7_distortion_identity_and_bound (samples : List ℝ) (amount : ℝ)
    (h : 0 < amount) :
    distort samples 0 = samples ∧
      distort samples amount =
        (samples.map (fun s => s * (1 + amount * 10))).map Real.tanh ∧
      allInUnitInterval (distort samples amount) := by
  refine ⟨?_, ?_, ?_⟩
  · rw [distort, if_neg (lt_irrefl 0)]
  · rw [distort, if_pos h]
  · intro y hy
    rw [distort, if_pos h] at hy
    obtain ⟨x, hx, rfl⟩ := List.mem_map.mp hy
    exact real_tanh_mem x

/-- C7 witness: a two-sample buffer at `amount = 1`. -/
theorem c7_distortion_identity_and_bound_witness :
    distort [(0:ℝ), 1/2] 0 = [(0:ℝ), 1/2] ∧
      distort [(0:ℝ), 1/2] 1 =
        (([(0:ℝ), 1/2]).map (fun s => s * (1 + 1 * 10))).map Real.tanh ∧
      allInUnitInterval (distort [(0:ℝ), 1/2] 1) :=
  c7_distortion_identity_and_bound [(0:ℝ), 1/2] 1 (by norm_num)

end Sauce
